import Mathlib

/-!
Verification development for the PCD8544 LCD driver crate.

The crate contains several historical variants of the same driver:
 * a legacy single-file driver (`src/lib.rs`) with infallible pins,
 * a backend-based variant (`src/backend.rs`, `src/texttarget.rs`, `src/drawtarget.rs`),
 * a SPI/feature-flag variant (`src/display.rs`, `src/instructions.rs`,
   `src/textmode.rs`, `src/graphics.rs`).

Each variant is embedded below.  Hardware interaction is modelled as a trace
of pin/SPI events; fallible variants run in a state monad parameterised by an
environment that decides, per attempted I/O operation, whether it succeeds.
-/

set_option maxRecDepth 100000
set_option maxHeartbeats 2000000

namespace PCD

/-- WIDTH constant from src/lib.rs (and the crate root of the later variants). -/
def WIDTH : Nat := 84

/-- HEIGHT constant from src/lib.rs. -/
def HEIGHT : Nat := 48

/-- ROWS constant from src/lib.rs: HEIGHT / 8 = 6 DDRAM banks. -/
def ROWS : Nat := HEIGHT / 8

/-- Modelled from the spec: DDRAM_SIZE from the crate root of the display.rs
variant (that root file is not under src/); the spec fixes DDRAM at 504 bytes
(84 columns times 6 banks). -/
def DDRAM_SIZE : Nat := 504

/-- Modelled from the spec: DDRAM_BANKS from the crate root of the display.rs
variant; the spec fixes 6 banks. -/
def DDRAM_BANKS : Nat := 6

/-- COLUMNS constant from src/textmode.rs: WIDTH / 6 = 14 text columns. -/
def COLUMNS : Nat := WIDTH / 6

/-- Temperature coefficient argument (src/instructions.rs). -/
inductive TemperatureCoefficient
  | TC0
  | TC1
  | TC2
  | TC3
deriving DecidableEq

/-- Discriminant values of TemperatureCoefficient (repr(u8) in the source). -/
def TemperatureCoefficient.code : TemperatureCoefficient → Nat
  | .TC0 => 0
  | .TC1 => 1
  | .TC2 => 2
  | .TC3 => 3

/-- Bias multiplex rate argument (src/instructions.rs). -/
inductive MuxRate
  | Bias1To100
  | Bias1To80
  | Bias1To65
  | Bias1To48
  | Bias1To40
  | Bias1To24
  | Bias1To18
  | Bias1To10
deriving DecidableEq

/-- Discriminant values of MuxRate (repr(u8) in the source). -/
def MuxRate.code : MuxRate → Nat
  | .Bias1To100 => 0
  | .Bias1To80 => 1
  | .Bias1To65 => 2
  | .Bias1To48 => 3
  | .Bias1To40 => 4
  | .Bias1To24 => 5
  | .Bias1To18 => 6
  | .Bias1To10 => 7

/-- Display mode argument (src/instructions.rs). -/
inductive DisplayMode
  | DisplayBlank
  | Normal
  | AllSegmentsOn
  | InverseVideo
deriving DecidableEq

/-- Discriminant values of DisplayMode (repr(u8) in the source). -/
def DisplayMode.code : DisplayMode → Nat
  | .DisplayBlank => 0b000
  | .Normal => 0b100
  | .AllSegmentsOn => 0b001
  | .InverseVideo => 0b101

/-- PCD8544 instruction set (src/instructions.rs). -/
inductive Instruction
  | NOP
  | FunctionSet (pd v h : Bool)
  | SetDisplayMode (mode : DisplayMode)
  | Yaddress (y : Nat)
  | Xaddress (x : Nat)
  | SetTempCoefficient (tc : TemperatureCoefficient)
  | SetBiasMode (mux : MuxRate)
  | SetVop (contrast : Nat)
deriving DecidableEq

/-- Bool as the 0/1 bit produced by a Rust `bool as u8` cast. -/
def boolBit : Bool → Nat
  | true => 1
  | false => 0

/-- Assertion guards inside Instruction::byte (src/instructions.rs):
Yaddress asserts y < 6 and Xaddress asserts x <= 84; all other
instructions encode unconditionally. -/
def Instruction.assertOk : Instruction → Bool
  | .Yaddress y => decide (y < 6)
  | .Xaddress x => decide (x ≤ 84)
  | _ => true

/-- Instruction::byte (src/instructions.rs): the wire byte of an instruction,
as computed when its assertion passes. -/
def Instruction.byte : Instruction → Nat
  | .NOP => 0b00000000
  | .FunctionSet pd v h => 0b00100000 ||| (boolBit pd <<< 2) ||| (boolBit v <<< 1) ||| boolBit h
  | .SetDisplayMode mode => 0b00001000 ||| mode.code
  | .Yaddress y => 0b01000000 ||| y
  | .Xaddress x => 0b10000000 ||| x
  | .SetTempCoefficient tc => 0b00000100 ||| tc.code
  | .SetBiasMode mux => 0b00010000 ||| mux.code
  | .SetVop contrast => 0b10000000 ||| contrast

/-- Instruction::mode (src/instructions.rs): false = basic, true = extended. -/
def Instruction.mode : Instruction → Bool
  | .SetTempCoefficient _ => true
  | .SetBiasMode _ => true
  | .SetVop _ => true
  | _ => false

/-- Wire events: output-pin transitions and SPI byte transfers.  The pin
constructors record the driven level (true = high). -/
inductive Ev
  | dc (b : Bool)
  | ce (b : Bool)
  | rst (b : Bool)
  | din (b : Bool)
  | clk (b : Bool)
  | spi (bytes : List Nat)
deriving DecidableEq

/-- Modelled from the spec: the PCDError type of src/error.rs is not under
src/; display.rs wraps pin failures with PCDError::pin and SPI failures with
PCDError::spi, so the error is a two-way tag. -/
inductive PCDError
  | pin
  | spi
deriving DecidableEq

/-- Error tag produced when an event's underlying operation fails. -/
def evErr : Ev → PCDError
  | .spi _ => .spi
  | _ => .pin

/-- Environment: decides whether the k-th attempted I/O operation succeeds. -/
structure Env where
  ok : Nat → Bool

/-- Hardware-side observation: number of attempted I/O operations and the
trace of successful ones. -/
structure HW where
  tick : Nat
  events : List Ev
deriving DecidableEq

/-- Outcome of running a driver method: normal return, propagated I/O error
(Rust `Err`), or a failed assertion (Rust panic). -/
inductive Outcome (α : Type)
  | ok (a : α)
  | err (e : PCDError)
  | assertFailed
deriving DecidableEq

/-- State-and-trace monad for the fallible driver variants: an environment,
driver state of type sigma, and the hardware observation. -/
def M (σ : Type) (α : Type) : Type := Env → σ × HW → Outcome α × (σ × HW)

instance : Monad (M σ) where
  pure a := fun _ st => (.ok a, st)
  bind m k := fun env st =>
    match m env st with
    | (.ok a, st') => k a env st'
    | (.err e, st') => (.err e, st')
    | (.assertFailed, st') => (.assertFailed, st')

/-- Attempt one I/O operation: on success record the event, on failure
return the corresponding error; either way one attempt is consumed. -/
def ioOp (e : Ev) : M σ Unit := fun env st =>
  if env.ok st.2.tick then
    (.ok (), (st.1, ⟨st.2.tick + 1, st.2.events ++ [e]⟩))
  else
    (.err (evErr e), (st.1, ⟨st.2.tick + 1, st.2.events⟩))

/-- Read the driver state. -/
def getS : M σ σ := fun _ st => (.ok st.1, st)

/-- Update the driver state (pure field mutation in the source). -/
def modifyS (f : σ → σ) : M σ Unit := fun _ st => (.ok (), (f st.1, st.2))

/-- A failed Rust assert! (panic): aborts with no state change. -/
def assertFailM : M σ Unit := fun _ st => (.assertFailed, st)

/-- A `for _ in 0..n` loop body repetition. -/
def repeatM : Nat → M σ Unit → M σ Unit
  | 0, _ => pure ()
  | n + 1, m => do
      m
      repeatM n m

/-- Environment in which every I/O operation succeeds. -/
def okEnv : Env := ⟨fun _ => true⟩

/-- Driver state of the display.rs variant: the chip-mode flags, the
textmode shadow cursor (feature textmode) and the graphics framebuffer
(feature graphics). -/
structure DState where
  power_down_control : Bool
  entry_mode : Bool
  text_col : Nat
  text_row : Nat
  framebuffer : List Nat
deriving DecidableEq

namespace Display

/-- PCD8544::send (src/display.rs): CE low, one SPI write of the byte
slice, CE high. -/
def send (bytes : List Nat) : M DState Unit := do
  ioOp (.ce false)
  ioOp (.spi bytes)
  ioOp (.ce true)

/-- PCD8544::write_commands (src/display.rs): DC low, then send. -/
def write_commands (commands : List Nat) : M DState Unit := do
  ioOp (.dc false)
  send commands

/-- PCD8544::write_command (src/display.rs): sends a FunctionSet byte built
from the current power_down_control/entry_mode flags and the instruction's
mode bit, followed by the instruction's own byte.  A failing encoder
assertion is a panic. -/
def write_command (instr : Instruction) : M DState Unit := do
  let s ← getS
  if instr.assertOk then
    write_commands [(Instruction.FunctionSet s.power_down_control s.entry_mode instr.mode).byte,
      instr.byte]
  else
    assertFailM

/-- PCD8544::write_data (src/display.rs): DC high, send the data slice,
DC low again afterwards.  It does not touch the text cursor. -/
def write_data (data : List Nat) : M DState Unit := do
  ioOp (.dc true)
  send data
  ioOp (.dc false)

/-- PCD8544::hw_cls (src/display.rs): 504 single-byte zero data writes,
then reset the hardware X and Y address registers. -/
def hw_cls : M DState Unit := do
  repeatM DDRAM_SIZE (write_data [0x00])
  write_command (.Xaddress 0)
  write_command (.Yaddress 0)

/-- PCD8544::init_sequence (src/display.rs): the fixed six-byte init
configuration. -/
def init_sequence : List Nat :=
  [(Instruction.FunctionSet false false true).byte,
   (Instruction.SetVop 65).byte,
   (Instruction.SetTempCoefficient .TC2).byte,
   (Instruction.SetBiasMode .Bias1To48).byte,
   (Instruction.FunctionSet false false false).byte,
   (Instruction.SetDisplayMode .Normal).byte]

/-- PCD8544::reset (src/display.rs): RST pulse, reset the mode flags,
write the init sequence, clear DDRAM.  Every step propagates the first
I/O error. -/
def reset : M DState Unit := do
  ioOp (.rst false)
  ioOp (.rst true)
  modifyS (fun s => { s with power_down_control := false, entry_mode := false })
  write_commands init_sequence
  hw_cls

/-- PCD8544::set_contrast (src/display.rs). -/
def set_contrast (contrast : Nat) : M DState Unit :=
  write_command (.SetVop contrast)

end Display

/-- Pixel submitted through the embedded-graphics DrawTarget interface: an
i32 point and a binary color (true = On). -/
structure Px where
  x : Int
  y : Int
  colorOn : Bool
deriving DecidableEq

namespace Graphics

/-- GraphicsMode::flush (src/graphics.rs): copy the framebuffer and transmit
it with a single write_data call; no address-set commands are issued. -/
def flush : M DState Unit := do
  let s ← getS
  Display.write_data s.framebuffer

/-- GraphicsMode::set_pixel (src/graphics.rs): bounds-check x < 84 and
y < 48; inside bounds OR the mask 1 <<< (y % 8) into byte (y / 8) * 84 + x
for On, or AND its u8 complement for Off; outside bounds the framebuffer is
left untouched. -/
def set_pixel (fb : List Nat) (x y : Nat) (color : Bool) : List Nat :=
  if x < WIDTH ∧ y < HEIGHT then
    let idx := (y / 8) * WIDTH + x
    let mask := 1 <<< (y % 8)
    if color then
      fb.set idx (fb.getD idx 0 ||| mask)
    else
      fb.set idx (fb.getD idx 0 &&& (255 ^^^ mask))
  else
    fb

/-- Rectangle::contains for the display bounding box returned by
OriginDimensions::size in src/graphics.rs (embedded-graphics semantics:
top-left (0,0), size 84 by 48). -/
def bbContains (p : Px) : Bool :=
  decide (0 ≤ p.x) && decide (p.x < (WIDTH : Int))
    && decide (0 ≤ p.y) && decide (p.y < (HEIGHT : Int))

/-- DrawTarget::draw_iter (src/graphics.rs): keep only pixels inside the
bounding box, then set each one after casting its coordinates to unsigned. -/
def draw_iter (fb : List Nat) (pixels : List Px) : List Nat :=
  (pixels.filter bbContains).foldl
    (fun b p => set_pixel b p.x.toNat p.y.toNat p.colorOn) fb

/-- DrawTarget::clear (src/graphics.rs): fill the framebuffer with 0xFF for
On or 0x00 for Off. -/
def clear (color : Bool) : List Nat :=
  List.replicate DDRAM_SIZE (if color then 0xff else 0x00)

end Graphics

namespace DrawTarget2

/-- DrawTarget::draw_iter of the backend variant (src/drawtarget.rs): the
framebuffer is 6 rows of 84 bytes; a pixel whose i32 coordinates fall in
0..=MAX_X and 0..=MAX_Y updates byte [y / 8][x] with mask 1 <<< (y % 8);
every other pixel is skipped. -/
def draw_iter (fb : List (List Nat)) (pixels : List Px) : List (List Nat) :=
  pixels.foldl
    (fun b p =>
      if (0 : Int) ≤ p.x ∧ p.x ≤ (83 : Int) ∧ (0 : Int) ≤ p.y ∧ p.y ≤ (47 : Int) then
        let x := p.x.toNat
        let y := p.y.toNat
        let row := b.getD (y / 8) []
        let mask := 1 <<< (y % 8)
        let byte := row.getD x 0
        b.set (y / 8) (row.set x (if p.colorOn then byte ||| mask else byte &&& (255 ^^^ mask)))
      else b)
    fb

end DrawTarget2

namespace TextMode

/-- TextMode::cr_lf (src/textmode.rs) on the (col, row) pair: at column 14
return the carriage to column 0 and advance the row, with row 5 wrapping
back to row 0. -/
def cr_lf (p : Nat × Nat) : Nat × Nat :=
  if p.1 = 14 then (0, if p.2 = 5 then 0 else p.2 + 1) else p

/-- TextMode::increase_position (src/textmode.rs) on the (col, row) pair:
increment the column, then cr_lf. -/
def increase_position (p : Nat × Nat) : Nat × Nat :=
  cr_lf (p.1 + 1, p.2)

/-- cr_lf acting on the driver state's text cursor. -/
def cr_lfM : M DState Unit :=
  modifyS (fun s =>
    let p := cr_lf (s.text_col, s.text_row)
    { s with text_col := p.1, text_row := p.2 })

/-- increase_position acting on the driver state's text cursor. -/
def increase_positionM : M DState Unit :=
  modifyS (fun s =>
    let p := increase_position (s.text_col, s.text_row)
    { s with text_col := p.1, text_row := p.2 })

/-- TextMode::set_col (src/textmode.rs): a new column inside 0..COLUMNS is
stored and Xaddress(column times 6) is sent; out-of-bounds columns are
silently ignored. -/
def set_col (new_col : Nat) : M DState Unit :=
  if new_col < COLUMNS then do
    modifyS (fun s => { s with text_col := new_col })
    Display.write_command (.Xaddress (new_col * 6))
  else
    pure ()

/-- TextMode::set_row (src/textmode.rs): a new row inside 0..ROWS is stored
and Yaddress(row) is sent; out-of-bounds rows are silently ignored. -/
def set_row (new_row : Nat) : M DState Unit :=
  if new_row < DDRAM_BANKS then do
    modifyS (fun s => { s with text_row := new_row })
    Display.write_command (.Yaddress new_row)
  else
    pure ()

/-- TextMode::set_position (src/textmode.rs). -/
def set_position (new_col new_row : Nat) : M DState Unit := do
  set_col new_col
  set_row new_row

/-- TextMode::cls (src/textmode.rs): zero the shadow text cursor, then run
the hardware clear. -/
def cls : M DState Unit := do
  modifyS (fun s => { s with text_col := 0, text_row := 0 })
  Display.hw_cls

/-- Carriage-return character matched by Write::write_str. -/
def CRc : Char := Char.ofNat 13

/-- Line-feed character matched by Write::write_str. -/
def LFc : Char := Char.ofNat 10

/-- Padding written by the LF branch of write_str (src/textmode.rs):
COLUMNS minus the current shadow column, as u8 subtraction. -/
def lfPadding (s : DState) : Nat := COLUMNS - s.text_col

/-- char_to_bytes (src/textmode.rs): the built-in 5-bytes-per-glyph font,
keyed here by Unicode code point; unknown characters map to a filled
block. -/
def char_to_bytes (c : Char) : List Nat :=
  match c.toNat with
  | 32 => [0x00, 0x00, 0x00, 0x00, 0x00] --  
  | 33 => [0x00, 0x00, 0x5f, 0x00, 0x00] -- !
  | 34 => [0x00, 0x07, 0x00, 0x07, 0x00] -- "
  | 35 => [0x14, 0x7f, 0x14, 0x7f, 0x14] -- #
  | 36 => [0x24, 0x2a, 0x7f, 0x2a, 0x12] -- $
  | 37 => [0x23, 0x13, 0x08, 0x64, 0x62] -- %
  | 38 => [0x36, 0x49, 0x55, 0x22, 0x50] -- &
  | 39 => [0x00, 0x05, 0x03, 0x00, 0x00] -- apostrophe
  | 40 => [0x00, 0x1c, 0x22, 0x41, 0x00] -- (
  | 41 => [0x00, 0x41, 0x22, 0x1c, 0x00] -- )
  | 42 => [0x14, 0x08, 0x3e, 0x08, 0x14] -- *
  | 43 => [0x08, 0x08, 0x3e, 0x08, 0x08] -- +
  | 44 => [0x00, 0x50, 0x30, 0x00, 0x00] -- ,
  | 45 => [0x08, 0x08, 0x08, 0x08, 0x08] -- -
  | 46 => [0x00, 0x60, 0x60, 0x00, 0x00] -- .
  | 47 => [0x20, 0x10, 0x08, 0x04, 0x02] -- /
  | 48 => [0x3e, 0x51, 0x49, 0x45, 0x3e] -- 0
  | 49 => [0x00, 0x42, 0x7f, 0x40, 0x00] -- 1
  | 50 => [0x42, 0x61, 0x51, 0x49, 0x46] -- 2
  | 51 => [0x21, 0x41, 0x45, 0x4b, 0x31] -- 3
  | 52 => [0x18, 0x14, 0x12, 0x7f, 0x10] -- 4
  | 53 => [0x27, 0x45, 0x45, 0x45, 0x39] -- 5
  | 54 => [0x3c, 0x4a, 0x49, 0x49, 0x30] -- 6
  | 55 => [0x01, 0x71, 0x09, 0x05, 0x03] -- 7
  | 56 => [0x36, 0x49, 0x49, 0x49, 0x36] -- 8
  | 57 => [0x06, 0x49, 0x49, 0x29, 0x1e] -- 9
  | 58 => [0x00, 0x36, 0x36, 0x00, 0x00] -- :
  | 59 => [0x00, 0x56, 0x36, 0x00, 0x00] -- ;
  | 60 => [0x08, 0x14, 0x22, 0x41, 0x00] -- <
  | 61 => [0x14, 0x14, 0x14, 0x14, 0x14] -- =
  | 62 => [0x00, 0x41, 0x22, 0x14, 0x08] -- >
  | 63 => [0x02, 0x01, 0x51, 0x09, 0x06] -- ?
  | 64 => [0x32, 0x49, 0x79, 0x41, 0x3e] -- @
  | 65 => [0x7e, 0x11, 0x11, 0x11, 0x7e] -- A
  | 66 => [0x7f, 0x49, 0x49, 0x49, 0x36] -- B
  | 67 => [0x3e, 0x41, 0x41, 0x41, 0x22] -- C
  | 68 => [0x7f, 0x41, 0x41, 0x22, 0x1c] -- D
  | 69 => [0x7f, 0x49, 0x49, 0x49, 0x41] -- E
  | 70 => [0x7f, 0x09, 0x09, 0x09, 0x01] -- F
  | 71 => [0x3e, 0x41, 0x49, 0x49, 0x7a] -- G
  | 72 => [0x7f, 0x08, 0x08, 0x08, 0x7f] -- H
  | 73 => [0x00, 0x41, 0x7f, 0x41, 0x00] -- I
  | 74 => [0x20, 0x40, 0x41, 0x3f, 0x01] -- J
  | 75 => [0x7f, 0x08, 0x14, 0x22, 0x41] -- K
  | 76 => [0x7f, 0x40, 0x40, 0x40, 0x40] -- L
  | 77 => [0x7f, 0x02, 0x0c, 0x02, 0x7f] -- M
  | 78 => [0x7f, 0x04, 0x08, 0x10, 0x7f] -- N
  | 79 => [0x3e, 0x41, 0x41, 0x41, 0x3e] -- O
  | 80 => [0x7f, 0x09, 0x09, 0x09, 0x06] -- P
  | 81 => [0x3e, 0x41, 0x51, 0x21, 0x5e] -- Q
  | 82 => [0x7f, 0x09, 0x19, 0x29, 0x46] -- R
  | 83 => [0x46, 0x49, 0x49, 0x49, 0x31] -- S
  | 84 => [0x01, 0x01, 0x7f, 0x01, 0x01] -- T
  | 85 => [0x3f, 0x40, 0x40, 0x40, 0x3f] -- U
  | 86 => [0x1f, 0x20, 0x40, 0x20, 0x1f] -- V
  | 87 => [0x3f, 0x40, 0x38, 0x40, 0x3f] -- W
  | 88 => [0x63, 0x14, 0x08, 0x14, 0x63] -- X
  | 89 => [0x07, 0x08, 0x70, 0x08, 0x07] -- Y
  | 90 => [0x61, 0x51, 0x49, 0x45, 0x43] -- Z
  | 91 => [0x00, 0x7f, 0x41, 0x41, 0x00] -- [
  | 165 => [0x02, 0x04, 0x08, 0x10, 0x20] -- ¥
  | 93 => [0x00, 0x41, 0x41, 0x7f, 0x00] -- ]
  | 94 => [0x04, 0x02, 0x01, 0x02, 0x04] -- ^
  | 95 => [0x40, 0x40, 0x40, 0x40, 0x40] -- _
  | 96 => [0x00, 0x01, 0x02, 0x04, 0x00] -- `
  | 97 => [0x20, 0x54, 0x54, 0x54, 0x78] -- a
  | 98 => [0x7f, 0x48, 0x44, 0x44, 0x38] -- b
  | 99 => [0x38, 0x44, 0x44, 0x44, 0x20] -- c
  | 100 => [0x38, 0x44, 0x44, 0x48, 0x7f] -- d
  | 101 => [0x38, 0x54, 0x54, 0x54, 0x18] -- e
  | 102 => [0x08, 0x7e, 0x09, 0x01, 0x02] -- f
  | 103 => [0x0c, 0x52, 0x52, 0x52, 0x3e] -- g
  | 104 => [0x7f, 0x08, 0x04, 0x04, 0x78] -- h
  | 105 => [0x00, 0x44, 0x7d, 0x40, 0x00] -- i
  | 106 => [0x20, 0x40, 0x44, 0x3d, 0x00] -- j
  | 107 => [0x7f, 0x10, 0x28, 0x44, 0x00] -- k
  | 108 => [0x00, 0x41, 0x7f, 0x40, 0x00] -- l
  | 109 => [0x7c, 0x04, 0x18, 0x04, 0x78] -- m
  | 110 => [0x7c, 0x08, 0x04, 0x04, 0x78] -- n
  | 111 => [0x38, 0x44, 0x44, 0x44, 0x38] -- o
  | 112 => [0x7c, 0x14, 0x14, 0x14, 0x08] -- p
  | 113 => [0x08, 0x14, 0x14, 0x18, 0x7c] -- q
  | 114 => [0x7c, 0x08, 0x04, 0x04, 0x08] -- r
  | 115 => [0x48, 0x54, 0x54, 0x54, 0x20] -- s
  | 116 => [0x04, 0x3f, 0x44, 0x40, 0x20] -- t
  | 117 => [0x3c, 0x40, 0x40, 0x20, 0x7c] -- u
  | 118 => [0x1c, 0x20, 0x40, 0x20, 0x1c] -- v
  | 119 => [0x3c, 0x40, 0x30, 0x40, 0x3c] -- w
  | 120 => [0x44, 0x28, 0x10, 0x28, 0x44] -- x
  | 121 => [0x0c, 0x50, 0x50, 0x50, 0x3c] -- y
  | 122 => [0x44, 0x64, 0x54, 0x4c, 0x44] -- z
  | 123 => [0x00, 0x08, 0x36, 0x41, 0x00] -- {
  | 124 => [0x00, 0x00, 0x7f, 0x00, 0x00] -- |
  | 125 => [0x00, 0x41, 0x36, 0x08, 0x00] -- }
  | 8592 => [0x10, 0x08, 0x08, 0x10, 0x08] -- ←
  | 8594 => [0x78, 0x46, 0x41, 0x46, 0x78] -- →
  | 176 => [0x00, 0x02, 0x05, 0x02, 0x00] -- °
  | _ => [0xFF, 0xFF, 0xFF, 0xFF, 0xFF]

/-- Body of one Write::write_str loop iteration (src/textmode.rs): CR sets
column 0; LF pads the remainder of the row with 6-byte zero cells, adds the
padding to the column and wraps; any other character sends its 5 glyph
bytes plus one zero gap byte and advances the cursor. -/
def processChar (c : Char) : M DState Unit :=
  if c = CRc then
    set_col 0
  else if c = LFc then do
    let s ← getS
    let padding := lfPadding s
    repeatM padding (Display.write_data (List.replicate 6 0x00))
    modifyS (fun s2 => { s2 with text_col := s2.text_col + padding })
    cr_lfM
  else do
    Display.write_data (char_to_bytes c)
    Display.write_data [0x00]
    increase_positionM

/-- Write::write_str (src/textmode.rs): process every character in order,
stopping at the first error. -/
def write_str : List Char → M DState Unit
  | [] => pure ()
  | c :: cs => do
      processChar c
      write_str cs

end TextMode

/-- Data bytes of a trace: SPI payloads transmitted while the DC line is
high; the Bool argument is the current DC level. -/
def dataBytes : Bool → List Ev → List Nat
  | _, [] => []
  | _, Ev.dc b :: es => dataBytes b es
  | dcLevel, Ev.spi bs :: es => (if dcLevel then bs else []) ++ dataBytes dcLevel es
  | dcLevel, _ :: es => dataBytes dcLevel es

/-- Command bytes of a trace: SPI payloads transmitted while DC is low. -/
def commandBytes : Bool → List Ev → List Nat
  | _, [] => []
  | _, Ev.dc b :: es => commandBytes b es
  | dcLevel, Ev.spi bs :: es => (if dcLevel then [] else bs) ++ commandBytes dcLevel es
  | dcLevel, _ :: es => commandBytes dcLevel es

/-- Events of the legacy (src/lib.rs) driver's pins, plus a ghost marker
xfer that records each whole byte transfer together with its data/command
flag. -/
inductive LEv
  | clk (b : Bool)
  | din (b : Bool)
  | dc (b : Bool)
  | ce (b : Bool)
  | xfer (data : Bool) (value : Nat)
deriving DecidableEq

/-- Legacy driver state (src/lib.rs): the shadow cursor and the pin trace
(every pin there is infallible). -/
structure LSt where
  x : Nat
  y : Nat
  trace : List LEv
deriving DecidableEq

namespace Legacy

/-- PCD8544::increase_position (src/lib.rs; identically in
src/texttarget.rs): x advances modulo WIDTH, and when x wraps to 0 the bank
is updated with y = (y + 1) & ROWS, a bitwise AND with 6. -/
def increase_position (p : Nat × Nat) : Nat × Nat :=
  let x := (p.1 + 1) % WIDTH
  if x = 0 then (x, (p.2 + 1) &&& ROWS) else (x, p.2)

/-- PCD8544::write_bit (src/lib.rs): set DIN, pulse CLK high then low. -/
def write_bit (high : Bool) (st : LSt) : LSt :=
  { st with trace := st.trace ++ [LEv.din high, LEv.clk true, LEv.clk false] }

/-- The eight MSB-first write_bit calls inside PCD8544::write_byte
(src/lib.rs); the value shifts left (as u8, mod 256) after each bit. -/
def write_bits : Nat → Nat → LSt → LSt
  | 0, _, st => st
  | n + 1, v, st => write_bits n ((v <<< 1) % 256) (write_bit (decide (v &&& 0x80 = 0x80)) st)

/-- PCD8544::write_byte (src/lib.rs): for a data byte drive DC high and
advance the shadow cursor, otherwise drive DC low; then CE low, eight bits
MSB first, CE high.  The ghost xfer event records the transferred byte. -/
def write_byte (data : Bool) (value : Nat) (st : LSt) : LSt :=
  let st1 :=
    if data then
      let st' := { st with trace := st.trace ++ [LEv.dc true] }
      let p := increase_position (st'.x, st'.y)
      { st' with x := p.1, y := p.2 }
    else
      { st with trace := st.trace ++ [LEv.dc false] }
  let st2 := { st1 with trace := st1.trace ++ [LEv.xfer data value, LEv.ce false] }
  let st3 := write_bits 8 value st2
  { st3 with trace := st3.trace ++ [LEv.ce true] }

/-- PCD8544::write_data (src/lib.rs). -/
def write_data (value : Nat) (st : LSt) : LSt :=
  write_byte true value st

/-- PCD8544::write_command (src/lib.rs). -/
def write_command (value : Nat) (st : LSt) : LSt :=
  write_byte false value st

/-- PCD8544::set_x_position (src/lib.rs): reduce mod WIDTH, store, and send
0x80 | x as a command. -/
def set_x_position (x : Nat) (st : LSt) : LSt :=
  let x2 := x % WIDTH
  write_command (0x80 ||| x2) { st with x := x2 }

/-- PCD8544::set_y_position (src/lib.rs): reduce mod ROWS, store, and send
0x40 | y as a command. -/
def set_y_position (y : Nat) (st : LSt) : LSt :=
  let y2 := y % ROWS
  write_command (0x40 ||| y2) { st with y := y2 }

/-- The loop of PCD8544::clear (src/lib.rs): n zero data bytes. -/
def clear_loop : Nat → LSt → LSt
  | 0, st => st
  | n + 1, st => clear_loop n (write_data 0x00 st)

/-- PCD8544::clear (src/lib.rs): WIDTH * ROWS zero data bytes, then reset
the X and Y positions to 0. -/
def clear (st : LSt) : LSt :=
  set_y_position 0 (set_x_position 0 (clear_loop (WIDTH * ROWS) st))

/-- Data bytes recorded in a legacy trace: the values of ghost xfer markers
whose data flag is set. -/
def ldataBytes (evs : List LEv) : List Nat :=
  evs.filterMap (fun e =>
    match e with
    | LEv.xfer true v => some v
    | _ => none)

end Legacy

/-- Cursor state of the backend-based variant (src/texttarget.rs): the
shadow (x, y) pair. -/
abbrev TTState := Nat × Nat

namespace TextTarget

/-- PCD8544GpioBackend::write_bit (src/backend.rs). -/
def write_bit (high : Bool) : M TTState Unit := do
  ioOp (.din high)
  ioOp (.clk true)
  ioOp (.clk false)

/-- The eight bit writes of PCD8544GpioBackend::write_byte
(src/backend.rs), MSB first, value shifting left as u8. -/
def write_bits : Nat → Nat → M TTState Unit
  | 0, _ => pure ()
  | n + 1, v => do
      write_bit (decide (v &&& 0x80 = 0x80))
      write_bits n ((v <<< 1) % 256)

/-- PCD8544GpioBackend::write_byte (src/backend.rs): DC to the data flag,
CE low, eight bits, CE high; every pin operation can fail. -/
def backend_write_byte (data : Bool) (value : Nat) : M TTState Unit := do
  ioOp (.dc data)
  ioOp (.ce false)
  write_bits 8 value
  ioOp (.ce true)

/-- Modelled from the spec: PCD8544::write_data of the backend variant's
crate root is not under src/ (src/texttarget.rs and src/drawtarget.rs only
call it); per the spec's write_data contract it transmits one byte in data
mode through the backend, while the cursor advance is performed by its
caller write_char in src/texttarget.rs. -/
def write_data (value : Nat) : M TTState Unit :=
  backend_write_byte true value

/-- PCD8544::write_char (src/texttarget.rs): advance the shadow cursor
first, then transmit the byte. -/
def write_char (value : Nat) : M TTState Unit := do
  modifyS Legacy.increase_position
  write_data value

end TextTarget


/-- Environment in which every I/O operation fails. -/
def failEnv : Env := ⟨fun _ => false⟩

/-- Textmode cursor invariant of the display.rs variant: the shadow column
is at most 13 and the shadow row at most 5. -/
def Inv (s : DState) : Prop := s.text_col ≤ 13 ∧ s.text_row ≤ 5

/-- A computation that never changes the driver state, whatever the
environment does. -/
def KeepsD {σ : Type} (m : M σ α) : Prop := ∀ env st, (m env st).2.1 = st.1

/-- A computation that preserves the textmode cursor invariant on every
return path, error returns included. -/
def PreservesInv (m : M DState α) : Prop :=
  ∀ env st, Inv st.1 → Inv ((m env st).2.1)

/-- Iterated TextMode cursor advance on (col, row) pairs. -/
def incN : Nat → Nat × Nat → Nat × Nat
  | 0, p => p
  | n + 1, p => incN n (TextMode.increase_position p)

/-- One TextMode cursor advance applied to a driver state. -/
def applyInc (s : DState) : DState :=
  { s with text_col := (TextMode.increase_position (s.text_col, s.text_row)).1,
           text_row := (TextMode.increase_position (s.text_col, s.text_row)).2 }

/-- Iterated TextMode cursor advance applied to a driver state. -/
def applyIncN (n : Nat) (s : DState) : DState :=
  { s with text_col := (incN n (s.text_col, s.text_row)).1,
           text_row := (incN n (s.text_col, s.text_row)).2 }

/-- Driver state as built by PCD8544::new: flags clear, text cursor (0,0),
zeroed framebuffer. -/
def s0 : DState := ⟨false, false, 0, 0, List.replicate DDRAM_SIZE 0⟩

/-- Driver state whose shadow text cursor sits at column 1. -/
def s1 : DState := ⟨false, false, 1, 0, List.replicate DDRAM_SIZE 0⟩

/-- Driver state with the text cursor at the start of the last row. -/
def s5 : DState := ⟨false, false, 0, 5, List.replicate DDRAM_SIZE 0⟩

/-- DC level after processing a list of events. -/
def dcAfter : Bool → List Ev → Bool
  | dcLevel, [] => dcLevel
  | _, Ev.dc b :: es => dcAfter b es
  | dcLevel, _ :: es => dcAfter dcLevel es


/-- Pin events of the eight write_bit calls of Legacy.write_byte. -/
def bitEvs : Nat → Nat → List LEv
  | 0, _ => []
  | n + 1, v =>
    [LEv.din (decide (v &&& 0x80 = 0x80)), LEv.clk true, LEv.clk false]
      ++ bitEvs n ((v <<< 1) % 256)

/-- Events appended to the trace by one Legacy.write_byte call. -/
def byteEvs (d : Bool) (v : Nat) : List LEv :=
  [LEv.dc d, LEv.xfer d v, LEv.ce false] ++ bitEvs 8 v ++ [LEv.ce true]

/-- Expected event list of Display.send. -/
def sendOps (bytes : List Nat) : List Ev :=
  [.ce false, .spi bytes, .ce true]

/-- Expected event list of Display.write_commands. -/
def write_commandsOps (commands : List Nat) : List Ev :=
  .dc false :: sendOps commands

/-- Expected event list of Display.write_command under flags pd and v. -/
def write_commandOps (pd v : Bool) (instr : Instruction) : List Ev :=
  write_commandsOps [(Instruction.FunctionSet pd v instr.mode).byte, instr.byte]

/-- Expected event list of Display.write_data. -/
def write_dataOps (data : List Nat) : List Ev :=
  .dc true :: sendOps data ++ [.dc false]

/-- Expected event list of Display.hw_cls under flags pd and v. -/
def hw_clsOps (pd v : Bool) : List Ev :=
  (List.replicate DDRAM_SIZE (write_dataOps [0x00])).flatten
    ++ (write_commandOps pd v (.Xaddress 0) ++ write_commandOps pd v (.Yaddress 0))

/-- Expected event list of Display.reset. -/
def resetOps : List Ev :=
  [.rst false, .rst true] ++ (write_commandsOps Display.init_sequence ++ hw_clsOps false false)

/-- State after Display.reset: the two chip-mode flags are cleared, all other
fields are untouched. -/
def resetState (s : DState) : DState :=
  { s with power_down_control := false, entry_mode := false }

/-- Index of the first failing operation among the next n attempts when the
attempt counter starts at t. -/
def firstFailIn (env : Env) : Nat → Nat → Option Nat
  | _, 0 => none
  | t, n + 1 =>
    if env.ok t then (firstFailIn env (t + 1) n).map (fun j => j + 1) else some 0

/-- Characterisation of a straight-line driver computation: from state s it
either performs all operations in ops (appending them to the trace, ending
in state s2 with value a), or it stops at the first failing operation,
returning that operation's error with exactly the earlier events traced and
exactly one attempt consumed by the failing operation. -/
def RunsTo (m : M DState α) (s : DState) (a : α) (s2 : DState) (ops : List Ev) : Prop :=
  ∀ env t evs,
    (firstFailIn env t ops.length = none →
      m env (s, ⟨t, evs⟩) = (.ok a, (s2, ⟨t + ops.length, evs ++ ops⟩))) ∧
    (∀ j, firstFailIn env t ops.length = some j →
      ∃ s3, m env (s, ⟨t, evs⟩) =
        (.err (evErr (ops.getD j (.ce true))), (s3, ⟨t + j + 1, evs ++ ops.take j⟩)))

theorem firstFailIn_okEnv (t n : Nat) : firstFailIn okEnv t n = none := by
  induction n generalizing t with
  | zero => rfl
  | succ n ih => simpa [firstFailIn, okEnv] using ih (t + 1)

theorem firstFailIn_lt (env : Env) :
    ∀ n t j, firstFailIn env t n = some j → j < n := by
  intro n
  induction n with
  | zero => intro t j h; simp [firstFailIn] at h
  | succ n ih =>
    intro t j h
    simp only [firstFailIn] at h
    by_cases hok : env.ok t
    · rw [if_pos hok] at h
      cases hf : firstFailIn env (t + 1) n with
      | none => rw [hf] at h; simp at h
      | some j2 =>
        rw [hf] at h
        simp only [Option.map_some', Option.some.injEq] at h
        have := ih (t + 1) j2 hf
        omega
    · rw [if_neg hok] at h
      cases h
      omega

theorem firstFailIn_append (env : Env) (n1 n2 t : Nat) :
    firstFailIn env t (n1 + n2) =
      match firstFailIn env t n1 with
      | some j => some j
      | none => (firstFailIn env (t + n1) n2).map (fun j => n1 + j) := by
  induction n1 generalizing t with
  | zero => simp [firstFailIn]
  | succ n ih =>
    have h : n + 1 + n2 = (n + n2) + 1 := by omega
    rw [h]
    by_cases hok : env.ok t
    · simp only [firstFailIn, hok, if_true, ih (t + 1)]
      cases hf : firstFailIn env (t + 1) n with
      | some j => simp [hf]
      | none =>
        have ht : t + 1 + n = t + (n + 1) := by omega
        simp only [hf, ht]
        cases firstFailIn env (t + (n + 1)) n2 with
        | none => simp
        | some j => simp; omega
    · simp [firstFailIn, hok]

theorem runsTo_pure (a : α) (s : DState) : RunsTo (pure a) s a s [] := by
  intro env t evs
  constructor
  · intro _
    simp [pure, Monad.toApplicative, instMonadM]
  · intro j hj
    simp [firstFailIn] at hj

theorem runsTo_ioOp (e : Ev) (s : DState) : RunsTo (ioOp e) s () s [e] := by
  intro env t evs
  constructor
  · intro h
    simp only [List.length_singleton, firstFailIn] at h
    by_cases hok : env.ok t
    · simp [ioOp, hok]
    · simp [hok] at h
  · intro j hj
    simp only [List.length_singleton, firstFailIn] at hj
    by_cases hok : env.ok t
    · simp [hok, firstFailIn] at hj
    · simp only [hok, if_false] at hj
      cases hj
      exact ⟨s, by simp [ioOp, hok]⟩

theorem runsTo_getS (s : DState) : RunsTo getS s s s [] := by
  intro env t evs
  refine ⟨fun _ => ?_, fun j hj => by simp [firstFailIn] at hj⟩
  simp [getS]

theorem runsTo_modifyS (f : DState → DState) (s : DState) :
    RunsTo (modifyS f) s () (f s) [] := by
  intro env t evs
  refine ⟨fun _ => ?_, fun j hj => by simp [firstFailIn] at hj⟩
  simp [modifyS]

theorem runsTo_bind {m : M DState α} {k : α → M DState β} {s s1 s2 : DState}
    {a : α} {b : β} {ops1 ops2 : List Ev}
    (h1 : RunsTo m s a s1 ops1) (h2 : RunsTo (k a) s1 b s2 ops2) :
    RunsTo (m >>= k) s b s2 (ops1 ++ ops2) := by
  intro env t evs
  have split := firstFailIn_append env ops1.length ops2.length t
  rw [List.length_append]
  constructor
  · intro hnone
    rw [split] at hnone
    cases hf1 : firstFailIn env t ops1.length with
    | some j => rw [hf1] at hnone; simp at hnone
    | none =>
      rw [hf1] at hnone
      cases hf2 : firstFailIn env (t + ops1.length) ops2.length with
      | some j => rw [hf2] at hnone; simp at hnone
      | none =>
        have e1 := (h1 env t evs).1 hf1
        have e2 := (h2 env (t + ops1.length) (evs ++ ops1)).1 hf2
        show Bind.bind m k env (s, ⟨t, evs⟩) = _
        simp only [Bind.bind, instMonadM, e1, e2, List.append_assoc, Nat.add_assoc]
  · intro j hj
    rw [split] at hj
    cases hf1 : firstFailIn env t ops1.length with
    | some j1 =>
      rw [hf1] at hj
      simp only [Option.some.injEq] at hj
      subst hj
      obtain ⟨s3, e1⟩ := (h1 env t evs).2 j1 hf1
      have hjlt : j1 < ops1.length := firstFailIn_lt env ops1.length t j1 hf1
      refine ⟨s3, ?_⟩
      show Bind.bind m k env (s, ⟨t, evs⟩) = _
      simp only [Bind.bind, instMonadM, e1]
      rw [List.getD_append _ _ _ _ hjlt, List.take_append_of_le_length (by omega)]
    | none =>
      rw [hf1] at hj
      cases hf2 : firstFailIn env (t + ops1.length) ops2.length with
      | none => rw [hf2] at hj; simp at hj
      | some j2 =>
        rw [hf2] at hj
        simp only [Option.map_some', Option.some.injEq] at hj
        subst hj
        have e1 := (h1 env t evs).1 hf1
        obtain ⟨s3, e2⟩ := (h2 env (t + ops1.length) (evs ++ ops1)).2 j2 hf2
        refine ⟨s3, ?_⟩
        show Bind.bind m k env (s, ⟨t, evs⟩) = _
        simp only [Bind.bind, instMonadM, e1, e2]
        rw [List.getD_append_right _ _ _ _ (by omega), List.take_append, List.append_assoc]
        have harith : ops1.length + j2 - ops1.length = j2 := by omega
        rw [harith]
        have harith2 : t + ops1.length + j2 + 1 = t + (ops1.length + j2) + 1 := by omega
        rw [harith2]

/-- Under the always-succeeding environment a characterised computation takes
its success branch. -/
theorem RunsTo.run_okEnv {m : M DState α} {s : DState} {a : α} {s2 : DState}
    {ops : List Ev} (h : RunsTo m s a s2 ops) (t : Nat) (evs : List Ev) :
    m okEnv (s, ⟨t, evs⟩) = (.ok a, (s2, ⟨t + ops.length, evs ++ ops⟩)) :=
  (h okEnv t evs).1 (firstFailIn_okEnv t ops.length)

theorem runsTo_send (s : DState) (bytes : List Nat) :
    RunsTo (Display.send bytes) s () s (sendOps bytes) :=
  runsTo_bind (runsTo_ioOp (.ce false) s)
    (runsTo_bind (runsTo_ioOp (.spi bytes) s) (runsTo_ioOp (.ce true) s))

theorem runsTo_write_commands (s : DState) (commands : List Nat) :
    RunsTo (Display.write_commands commands) s () s (write_commandsOps commands) :=
  runsTo_bind (runsTo_ioOp (.dc false) s) (runsTo_send s commands)

theorem runsTo_write_command (s : DState) (instr : Instruction)
    (h : instr.assertOk = true) :
    RunsTo (Display.write_command instr) s () s
      (write_commandOps s.power_down_control s.entry_mode instr) := by
  refine runsTo_bind (runsTo_getS s) ?_
  rw [if_pos h]
  exact runsTo_write_commands s _

theorem runsTo_write_data (s : DState) (data : List Nat) :
    RunsTo (Display.write_data data) s () s (write_dataOps data) := by
  show RunsTo _ s () s ([Ev.dc true] ++ (sendOps data ++ [Ev.dc false]))
  refine runsTo_bind (runsTo_ioOp (.dc true) s) ?_
  exact runsTo_bind (runsTo_send s data) (runsTo_ioOp (.dc false) s)

theorem runsTo_repeat {m : M DState Unit} {ops : List Ev}
    (h : ∀ s, RunsTo m s () s ops) :
    ∀ n s, RunsTo (repeatM n m) s () s (List.replicate n ops).flatten := by
  intro n
  induction n with
  | zero => intro s; exact runsTo_pure () s
  | succ n ih =>
    intro s
    show RunsTo (m >>= fun _ => repeatM n m) s () s (ops ++ (List.replicate n ops).flatten)
    exact runsTo_bind (h s) (ih s)

theorem runsTo_hw_cls (s : DState) :
    RunsTo Display.hw_cls s () s (hw_clsOps s.power_down_control s.entry_mode) := by
  unfold Display.hw_cls hw_clsOps
  refine runsTo_bind (runsTo_repeat (fun s' => runsTo_write_data s' [0x00]) DDRAM_SIZE s) ?_
  exact runsTo_bind (runsTo_write_command s (.Xaddress 0) (by decide))
    (runsTo_write_command s (.Yaddress 0) (by decide))

theorem runsTo_reset (s : DState) :
    RunsTo Display.reset s () (resetState s) resetOps := by
  have hops : resetOps = [Ev.rst false] ++ ([Ev.rst true]
      ++ ([] ++ (write_commandsOps Display.init_sequence ++ hw_clsOps false false))) := by
    simp [resetOps]
  rw [hops]
  unfold Display.reset
  refine runsTo_bind (runsTo_ioOp (.rst false) s) ?_
  refine runsTo_bind (runsTo_ioOp (.rst true) s) ?_
  refine runsTo_bind (runsTo_modifyS _ s) ?_
  refine runsTo_bind (runsTo_write_commands (resetState s) Display.init_sequence) ?_
  exact runsTo_hw_cls (resetState s)

theorem runsTo_flush (s : DState) :
    RunsTo Graphics.flush s () s (write_dataOps s.framebuffer) := by
  unfold Graphics.flush
  show RunsTo _ s () s ([] ++ write_dataOps s.framebuffer)
  exact runsTo_bind (runsTo_getS s) (runsTo_write_data s s.framebuffer)

theorem dataBytes_append (xs ys : List Ev) :
    ∀ dcLevel, dataBytes dcLevel (xs ++ ys) =
      dataBytes dcLevel xs ++ dataBytes (dcAfter dcLevel xs) ys := by
  induction xs with
  | nil => intro dcLevel; rfl
  | cons e es ih =>
    intro dcLevel
    cases e <;> simp [dataBytes, dcAfter, ih]

theorem commandBytes_append (xs ys : List Ev) :
    ∀ dcLevel, commandBytes dcLevel (xs ++ ys) =
      commandBytes dcLevel xs ++ commandBytes (dcAfter dcLevel xs) ys := by
  induction xs with
  | nil => intro dcLevel; rfl
  | cons e es ih =>
    intro dcLevel
    cases e <;> simp [commandBytes, dcAfter, ih]

theorem dataBytes_write_dataOps (d : List Nat) (dcLevel : Bool) :
    dataBytes dcLevel (write_dataOps d) = d := by
  simp [write_dataOps, sendOps, dataBytes]

theorem commandBytes_write_dataOps (d : List Nat) (dcLevel : Bool) :
    commandBytes dcLevel (write_dataOps d) = [] := by
  simp [write_dataOps, sendOps, commandBytes]

theorem dcAfter_write_dataOps (d : List Nat) (dcLevel : Bool) :
    dcAfter dcLevel (write_dataOps d) = false := by
  simp [write_dataOps, sendOps, dcAfter]

theorem dataBytes_clear_flatten (rest : List Ev) :
    ∀ n, dataBytes false ((List.replicate n (write_dataOps [0x00])).flatten ++ rest) =
      List.replicate n 0x00 ++ dataBytes false rest := by
  intro n
  induction n with
  | zero => rfl
  | succ n ih =>
    rw [List.replicate_succ, List.flatten_cons, List.append_assoc,
      dataBytes_append, dataBytes_write_dataOps, dcAfter_write_dataOps, ih]
    rfl

theorem commandBytes_clear_flatten (rest : List Ev) :
    ∀ n, commandBytes false ((List.replicate n (write_dataOps [0x00])).flatten ++ rest) =
      commandBytes false rest := by
  intro n
  induction n with
  | zero => rfl
  | succ n ih =>
    rw [List.replicate_succ, List.flatten_cons, List.append_assoc,
      commandBytes_append, commandBytes_write_dataOps, dcAfter_write_dataOps, ih]
    rfl

theorem keepsD_ioOp {σ : Type} (e : Ev) : KeepsD (ioOp e : M σ Unit) := by
  intro env st
  unfold ioOp
  split <;> rfl

theorem keepsD_pure {σ α : Type} (a : α) : KeepsD (pure a : M σ α) := by
  intro env st
  rfl

theorem keepsD_getS {σ : Type} : KeepsD (getS : M σ σ) := by
  intro env st
  rfl

theorem keepsD_assertFailM {σ : Type} : KeepsD (assertFailM : M σ Unit) := by
  intro env st
  rfl

theorem keepsD_bind {σ : Type} {m : M σ α} {k : α → M σ β}
    (h1 : KeepsD m) (h2 : ∀ a, KeepsD (k a)) : KeepsD (m >>= k) := by
  intro env st
  show ((Bind.bind m k) env st).2.1 = st.1
  simp only [Bind.bind, instMonadM]
  rcases hm : m env st with ⟨o, st2⟩
  have h1' : st2.1 = st.1 := by
    have := h1 env st
    rw [hm] at this
    exact this
  cases o with
  | ok a => exact (h2 a env st2).trans h1'
  | err e => exact h1'
  | assertFailed => exact h1'

theorem keepsD_ite {σ : Type} {c : Prop} [Decidable c] {m k : M σ α}
    (h1 : KeepsD m) (h2 : KeepsD k) : KeepsD (if c then m else k) := by
  by_cases h : c
  · rw [if_pos h]; exact h1
  · rw [if_neg h]; exact h2

theorem keepsD_repeat {σ : Type} {m : M σ Unit} (h : KeepsD m) :
    ∀ n, KeepsD (repeatM n m) := by
  intro n
  induction n with
  | zero => exact keepsD_pure ()
  | succ n ih => exact keepsD_bind h (fun _ => ih)

theorem keepsD_send (bytes : List Nat) : KeepsD (Display.send bytes) :=
  keepsD_bind (keepsD_ioOp _) (fun _ =>
    keepsD_bind (keepsD_ioOp _) (fun _ => keepsD_ioOp _))

theorem keepsD_write_commands (commands : List Nat) :
    KeepsD (Display.write_commands commands) :=
  keepsD_bind (keepsD_ioOp _) (fun _ => keepsD_send commands)

theorem keepsD_write_command (instr : Instruction) :
    KeepsD (Display.write_command instr) :=
  keepsD_bind keepsD_getS (fun _ =>
    keepsD_ite (keepsD_write_commands _) keepsD_assertFailM)

theorem keepsD_write_data (data : List Nat) : KeepsD (Display.write_data data) :=
  keepsD_bind (keepsD_ioOp _) (fun _ =>
    keepsD_bind (keepsD_send data) (fun _ => keepsD_ioOp _))

theorem keepsD_hw_cls : KeepsD Display.hw_cls :=
  keepsD_bind (keepsD_repeat (keepsD_write_data [0x00]) DDRAM_SIZE) (fun _ =>
    keepsD_bind (keepsD_write_command _) (fun _ => keepsD_write_command _))

theorem keepsD_tt_write_bit (high : Bool) : KeepsD (TextTarget.write_bit high) :=
  keepsD_bind (keepsD_ioOp _) (fun _ =>
    keepsD_bind (keepsD_ioOp _) (fun _ => keepsD_ioOp _))

theorem keepsD_tt_write_bits : ∀ n v, KeepsD (TextTarget.write_bits n v) := by
  intro n
  induction n with
  | zero => intro v; exact keepsD_pure ()
  | succ n ih =>
    intro v
    exact keepsD_bind (keepsD_tt_write_bit _) (fun _ => ih _)

theorem keepsD_tt_write_data (v : Nat) : KeepsD (TextTarget.write_data v) :=
  keepsD_bind (keepsD_ioOp _) (fun _ =>
    keepsD_bind (keepsD_ioOp _) (fun _ =>
      keepsD_bind (keepsD_tt_write_bits 8 v) (fun _ => keepsD_ioOp _)))

/-- Whatever the environment does, PCD8544::write_char of the backend
variant leaves the shadow cursor advanced by increase_position: the advance
happens before the transmission and is never rolled back. -/
theorem tt_write_char_state (v : Nat) (env : Env) (p : TTState) (hw : HW) :
    (TextTarget.write_char v env (p, hw)).2.1 = Legacy.increase_position p := by
  show ((modifyS Legacy.increase_position >>= fun _ =>
    TextTarget.write_data v) env (p, hw)).2.1 = _
  simp only [Bind.bind, instMonadM, modifyS]
  exact keepsD_tt_write_data v env _

/-- C1: the claim says a data-byte write advances the shadow cursor with
x = (x+1) mod 84 and, on wrap, y = (y+1) mod 6.  The code instead computes
y = (y+1) & 6 (bitwise AND): from (83,0) one data byte yields (0,0) where
the claim requires (0,1), and from (83,5) it yields (0,6), outside the
documented bank range 0..=5.  This evaluates the code at those failing
inputs. -/
theorem c1_increase_position_and_bug :
    Legacy.increase_position (83, 0) = (0, 0) ∧
    (Legacy.increase_position (83, 0)).2 ≠ (0 + (83 + 1) / 84) % 6 ∧
    Legacy.increase_position (83, 5) = (0, 6) ∧
    6 ≥ DDRAM_BANKS ∧
    (Legacy.write_data 0x00 ⟨83, 0, []⟩).x = 0 ∧
    (Legacy.write_data 0x00 ⟨83, 0, []⟩).y = 0 ∧
    (TextTarget.write_char 0x00 okEnv ((83, 0), ⟨0, []⟩)).2.1 = (0, 0) := by
  refine ⟨by decide, by decide, by decide, by decide, by decide, by decide, ?_⟩
  rw [tt_write_char_state]
  decide

/-- C5: for every u8 contrast value the encoded SetVop byte equals the byte
encoded for the value masked to 7 bits, because the encoding ORs in 0x80;
in particular SetVop 200 and SetVop 72 encode identically. -/
theorem c5_setvop_masked :
    (∀ v : Nat, v < 256 →
      (Instruction.SetVop v).byte = (Instruction.SetVop (v &&& 0x7F)).byte) ∧
    (Instruction.SetVop 200).byte = (Instruction.SetVop 72).byte := by
  constructor
  · decide
  · decide

theorem c5_witness :
    (200 : Nat) < 256 ∧
    (Instruction.SetVop 200).byte = (Instruction.SetVop (200 &&& 0x7F)).byte :=
  ⟨by decide, c5_setvop_masked.1 200 (by decide)⟩

/-- C2: write_command transmits exactly two command bytes, a FunctionSet
byte built from the current power_down and entry-mode flags and the
instruction's mode bit, then the instruction's byte, framed by DC low
before the transfer and CE low for its duration with CE high afterwards. -/
theorem c2_write_command_two_bytes :
    ∀ (s : DState) (instr : Instruction), instr.assertOk = true →
    ∀ (t : Nat) (evs : List Ev),
      Display.write_command instr okEnv (s, ⟨t, evs⟩) =
        (.ok (), (s, ⟨t + 4, evs ++
          [Ev.dc false, Ev.ce false,
           Ev.spi [(Instruction.FunctionSet s.power_down_control s.entry_mode instr.mode).byte,
             instr.byte],
           Ev.ce true]⟩)) := by
  intro s instr h t evs
  have := (runsTo_write_command s instr h).run_okEnv t evs
  simpa [write_commandOps, write_commandsOps, sendOps] using this

theorem c2_witness :
    (Instruction.SetVop 65).assertOk = true ∧
    Display.write_command (.SetVop 65) okEnv (s0, ⟨0, []⟩) =
      (.ok (), (s0, ⟨4, [Ev.dc false, Ev.ce false, Ev.spi [0x21, 0xC1], Ev.ce true]⟩)) := by
  refine ⟨rfl, ?_⟩
  have := c2_write_command_two_bytes s0 (.SetVop 65) rfl 0 []
  simpa using this


theorem ldataBytes_append (a b : List LEv) :
    Legacy.ldataBytes (a ++ b) = Legacy.ldataBytes a ++ Legacy.ldataBytes b := by
  simp [Legacy.ldataBytes, List.filterMap_append]

theorem ldataBytes_bitEvs : ∀ n v, Legacy.ldataBytes (bitEvs n v) = [] := by
  intro n
  induction n with
  | zero => intro v; rfl
  | succ n ih =>
    intro v
    rw [bitEvs, ldataBytes_append, ih]
    rfl

theorem ldataBytes_byteEvs (d : Bool) (v : Nat) :
    Legacy.ldataBytes (byteEvs d v) = if d then [v] else [] := by
  cases d <;>
    rw [byteEvs, ldataBytes_append, ldataBytes_append, ldataBytes_bitEvs] <;> rfl

theorem lwrite_bits_eq : ∀ n v st, Legacy.write_bits n v st =
    { st with trace := st.trace ++ bitEvs n v } := by
  intro n
  induction n with
  | zero => intro v st; simp [Legacy.write_bits, bitEvs]
  | succ n ih =>
    intro v st
    simp only [Legacy.write_bits, bitEvs, ih, Legacy.write_bit, List.append_assoc]

theorem lwrite_byte_eq (d : Bool) (v : Nat) (st : LSt) :
    Legacy.write_byte d v st =
      { x := if d then (Legacy.increase_position (st.x, st.y)).1 else st.x,
        y := if d then (Legacy.increase_position (st.x, st.y)).2 else st.y,
        trace := st.trace ++ byteEvs d v } := by
  cases d <;>
    simp [Legacy.write_byte, lwrite_bits_eq, byteEvs, List.append_assoc]

theorem clear_loop_ldata : ∀ n st,
    Legacy.ldataBytes (Legacy.clear_loop n st).trace =
      Legacy.ldataBytes st.trace ++ List.replicate n 0x00 := by
  intro n
  induction n with
  | zero => intro st; simp [Legacy.clear_loop]
  | succ n ih =>
    intro st
    rw [Legacy.clear_loop, ih, Legacy.write_data, lwrite_byte_eq]
    simp [ldataBytes_append, ldataBytes_byteEvs, List.replicate_succ]

/-- Legacy clear ends with the shadow cursor at (0,0) and transmits exactly
WIDTH * ROWS = 504 zero data bytes, whatever the starting cursor was. -/
theorem legacy_clear_spec (st : LSt) :
    (Legacy.clear st).x = 0 ∧ (Legacy.clear st).y = 0 ∧
    Legacy.ldataBytes (Legacy.clear st).trace =
      Legacy.ldataBytes st.trace ++ List.replicate (WIDTH * ROWS) 0x00 := by
  unfold Legacy.clear Legacy.set_x_position Legacy.set_y_position Legacy.write_command
  rw [lwrite_byte_eq, lwrite_byte_eq]
  refine ⟨rfl, rfl, ?_⟩
  simp [ldataBytes_append, ldataBytes_byteEvs, clear_loop_ldata]

/-- C3 counterexample: hw_cls does not reset the shadow text cursor; from a
state with text_col = 1 it returns with text_col still 1, while the claim
requires the shadow cursor to end at (0,0). -/
theorem c3_counterexample :
    (Display.hw_cls okEnv (s1, ⟨0, []⟩)).2.1.text_col = 1 ∧ (1 : Nat) ≠ 0 := by
  have h := (runsTo_hw_cls s1).run_okEnv 0 []
  rw [h]
  exact ⟨rfl, by decide⟩

/-- C3 amended: hw_cls transmits exactly 504 zero data bytes and then the
two hardware address-reset commands Xaddress(0) and Yaddress(0), leaving
the whole driver state (in particular the shadow text cursor) unchanged;
the legacy clear() additionally ends with its shadow cursor at (0,0). -/
theorem c3_hw_cls_and_clear :
    (∀ (s : DState) (t : Nat) (evs : List Ev),
      Display.hw_cls okEnv (s, ⟨t, evs⟩) =
        (.ok (), (s, ⟨t + (hw_clsOps s.power_down_control s.entry_mode).length,
          evs ++ hw_clsOps s.power_down_control s.entry_mode⟩))) ∧
    (∀ pd v, dataBytes false (hw_clsOps pd v) = List.replicate DDRAM_SIZE 0x00) ∧
    (∀ pd v, commandBytes false (hw_clsOps pd v) =
      [(Instruction.FunctionSet pd v false).byte, (Instruction.Xaddress 0).byte,
       (Instruction.FunctionSet pd v false).byte, (Instruction.Yaddress 0).byte]) ∧
    (∀ st : LSt, (Legacy.clear st).x = 0 ∧ (Legacy.clear st).y = 0 ∧
      Legacy.ldataBytes (Legacy.clear st).trace =
        Legacy.ldataBytes st.trace ++ List.replicate (WIDTH * ROWS) 0x00) := by
  refine ⟨?_, ?_, ?_, legacy_clear_spec⟩
  · intro s t evs
    exact (runsTo_hw_cls s).run_okEnv t evs
  · intro pd v
    unfold hw_clsOps
    rw [dataBytes_clear_flatten]
    simp [write_commandOps, write_commandsOps, sendOps, dataBytes, DDRAM_SIZE]
  · intro pd v
    unfold hw_clsOps
    rw [commandBytes_clear_flatten]
    simp [write_commandOps, write_commandsOps, sendOps, commandBytes, Instruction.mode]

/-- C4 counterexample: at a concrete state, flush issues no command bytes at
all, so in particular it does not first issue the two address-set commands
the claim requires before the data stream. -/
theorem c4_counterexample :
    commandBytes false ((Graphics.flush okEnv (s0, ⟨0, []⟩)).2.2.events) = [] ∧
    (Graphics.flush okEnv (s0, ⟨0, []⟩)).2.2.events =
      [Ev.dc true, Ev.ce false, Ev.spi (List.replicate DDRAM_SIZE 0), Ev.ce true,
       Ev.dc false] := by
  have h := (runsTo_flush s0).run_okEnv 0 []
  rw [h]
  constructor
  · simp [write_dataOps, sendOps, commandBytes]
  · simp [write_dataOps, sendOps, s0]

/-- C4 amended: flush streams the entire framebuffer as a single data
transfer (DC high, CE low, one SPI write of all 504 bytes in the buffer's
own bank-major, column-innermost order, CE high, DC low) and issues no
address-set commands, relying on the hardware cursor already being at
(0,0). -/
theorem c4_flush_streams_buffer :
    ∀ (s : DState) (t : Nat) (evs : List Ev),
      Graphics.flush okEnv (s, ⟨t, evs⟩) =
        (.ok (), (s, ⟨t + 5, evs ++ [Ev.dc true, Ev.ce false, Ev.spi s.framebuffer,
          Ev.ce true, Ev.dc false]⟩)) ∧
      dataBytes false (write_dataOps s.framebuffer) = s.framebuffer ∧
      commandBytes false (write_dataOps s.framebuffer) = [] := by
  intro s t evs
  refine ⟨?_, dataBytes_write_dataOps _ _, commandBytes_write_dataOps _ _⟩
  have := (runsTo_flush s).run_okEnv t evs
  simpa [write_dataOps, sendOps] using this

/-- C9: when a data byte is written through write_char, the shadow cursor
is advanced before the byte goes on the wire; if the transmission then
fails, the error is returned but the advanced cursor is kept. -/
theorem c9_advance_before_transmit :
    ∀ (p : TTState) (hw : HW) (v : Nat) (env : Env),
      env.ok hw.tick = false →
      TextTarget.write_char v env (p, hw) =
        (.err PCDError.pin, (Legacy.increase_position p, ⟨hw.tick + 1, hw.events⟩)) := by
  intro p hw v env h
  show (modifyS Legacy.increase_position >>= fun _ =>
    TextTarget.write_data v) env (p, hw) = _
  simp only [Bind.bind, instMonadM, modifyS]
  simp [TextTarget.write_data, TextTarget.backend_write_byte, Bind.bind, instMonadM,
    ioOp, h, evErr]

theorem c9_witness :
    failEnv.ok 0 = false ∧
    TextTarget.write_char 0x00 failEnv ((0, 0), ⟨0, []⟩) =
      (.err PCDError.pin, ((1, 0), ⟨1, []⟩)) := by
  refine ⟨rfl, ?_⟩
  have h := c9_advance_before_transmit (0, 0) ⟨0, []⟩ 0x00 failEnv rfl
  rw [h]
  decide

theorem firstFailIn_some_of (env : Env) :
    ∀ k t n, k < n → (∀ i, i < k → env.ok (t + i) = true) → env.ok (t + k) = false →
    firstFailIn env t n = some k := by
  intro k
  induction k with
  | zero =>
    intro t n hk hpre hfail
    cases n with
    | zero => omega
    | succ n =>
      have h0 : env.ok t = false := by simpa using hfail
      simp [firstFailIn, h0]
  | succ k ih =>
    intro t n hk hpre hfail
    cases n with
    | zero => omega
    | succ n =>
      have h0 : env.ok t = true := by simpa using hpre 0 (by omega)
      have hpre2 : ∀ i, i < k → env.ok (t + 1 + i) = true := by
        intro i hi
        have h2 := hpre (i + 1) (by omega)
        have e : t + 1 + i = t + (i + 1) := by omega
        rw [e]
        exact h2
      have hfail2 : env.ok (t + 1 + k) = false := by
        have e : t + 1 + k = t + (k + 1) := by omega
        rw [e]
        exact hfail
      have hr := ih (t + 1) n (by omega) hpre2 hfail2
      simp [firstFailIn, h0, hr]

/-- C8: if the k-th pin or transport operation inside reset fails, reset
returns that operation's error immediately: exactly the k operations before
it have been performed (they are the trace), the failing operation was
attempted exactly once (the attempt counter stops at k + 1), and nothing
after it is attempted — there is no retry. -/
theorem c8_reset_first_error :
    ∀ (s : DState) (env : Env) (k : Nat),
      k < resetOps.length →
      (∀ i, i < k → env.ok i = true) →
      env.ok k = false →
      ∃ s3, Display.reset env (s, ⟨0, []⟩) =
        (.err (evErr (resetOps.getD k (.ce true))), (s3, ⟨k + 1, resetOps.take k⟩)) := by
  intro s env k hk hpre hfail
  have hf : firstFailIn env 0 resetOps.length = some k := by
    refine firstFailIn_some_of env k 0 resetOps.length hk ?_ ?_
    · intro i hi
      simpa using hpre i hi
    · simpa using hfail
  obtain ⟨s3, h⟩ := (runsTo_reset s env 0 []).2 k hf
  refine ⟨s3, ?_⟩
  simpa using h

theorem c8_witness :
    0 < resetOps.length ∧
    (∃ s3, Display.reset failEnv (s0, ⟨0, []⟩) =
      (.err (evErr (resetOps.getD 0 (.ce true))), (s3, ⟨0 + 1, resetOps.take 0⟩))) ∧
    evErr (resetOps.getD 0 (.ce true)) = PCDError.pin ∧ resetOps.take 0 = [] := by
  refine ⟨?_, ?_, rfl, rfl⟩
  · simp [resetOps]
  · have h := c8_reset_first_error s0 failEnv 0 (by simp [resetOps]) (fun i hi => by omega) rfl
    simpa using h

theorem runsTo_processChar_ord (c : Char) (hcr : c ≠ TextMode.CRc)
    (hlf : c ≠ TextMode.LFc) (s : DState) :
    RunsTo (TextMode.processChar c) s () (applyInc s)
      (write_dataOps (TextMode.char_to_bytes c) ++ (write_dataOps [0x00] ++ [])) := by
  unfold TextMode.processChar
  rw [if_neg hcr, if_neg hlf]
  refine runsTo_bind (runsTo_write_data s _) ?_
  refine runsTo_bind (runsTo_write_data s _) ?_
  exact runsTo_modifyS _ s

theorem applyIncN_succ (n : Nat) (s : DState) :
    applyIncN n (applyInc s) = applyIncN (n + 1) s := by
  cases s
  simp [applyIncN, applyInc, incN]

theorem write_str_ord :
    ∀ (cs : List Char), (∀ c ∈ cs, c ≠ TextMode.CRc ∧ c ≠ TextMode.LFc) →
    ∀ (s : DState) (t : Nat) (evs : List Ev), ∃ evs2,
      TextMode.write_str cs okEnv (s, ⟨t, evs⟩) =
        (.ok (), (applyIncN cs.length s, ⟨t + 10 * cs.length, evs ++ evs2⟩)) := by
  intro cs
  induction cs with
  | nil =>
    intro _ s t evs
    refine ⟨[], ?_⟩
    show (pure () : M DState Unit) okEnv (s, ⟨t, evs⟩) = _
    simp [pure, applyIncN, incN]
  | cons c cs ih =>
    intro h s t evs
    have hc := h c (by simp)
    have hstep := (runsTo_processChar_ord c hc.1 hc.2 s).run_okEnv t evs
    have hlen : (write_dataOps (TextMode.char_to_bytes c)
        ++ (write_dataOps [0x00] ++ [])).length = 10 := by
      simp [write_dataOps, sendOps]
    rw [hlen] at hstep
    obtain ⟨evs2, hrest⟩ := ih (fun c2 hc2 => h c2 (by simp [hc2])) (applyInc s) (t + 10)
      (evs ++ (write_dataOps (TextMode.char_to_bytes c) ++ (write_dataOps [0x00] ++ [])))
    refine ⟨(write_dataOps (TextMode.char_to_bytes c) ++ (write_dataOps [0x00] ++ []))
      ++ evs2, ?_⟩
    show (TextMode.processChar c >>= fun _ => TextMode.write_str cs) okEnv (s, ⟨t, evs⟩) = _
    simp only [Bind.bind, instMonadM]
    rw [hstep]
    show TextMode.write_str cs okEnv (applyInc s, ⟨t + 10,
      evs ++ (write_dataOps (TextMode.char_to_bytes c) ++ (write_dataOps [0x00] ++ []))⟩) = _
    rw [hrest, applyIncN_succ]
    simp only [List.length_cons, List.append_assoc]
    have harith : t + 10 + 10 * cs.length = t + 10 * (cs.length + 1) := by ring
    rw [harith]

theorem incN_14_15 (r : Nat) (hr : r ≤ 5) :
    incN 14 (0, r) = (0, (r + 1) % 6) ∧ incN 15 (0, r) = (1, (r + 1) % 6) := by
  have h : r = 0 ∨ r = 1 ∨ r = 2 ∨ r = 3 ∨ r = 4 ∨ r = 5 := by omega
  rcases h with h | h | h | h | h | h <;> subst h <;> exact ⟨by decide, by decide⟩

/-- C7: from text cursor (0, r), fourteen ordinary characters land the
cursor exactly on the wrap boundary: the column resets to 0 and the row
advances by one, with row 5 wrapping to row 0 (ring behaviour); the 15th
character is then written on the new row, leaving the column at 1; the row
never reaches 6. -/
theorem c7_text_wrap :
    ∀ (r : Nat), r ≤ 5 →
    ∀ (cs : List Char) (c : Char),
      cs.length = 14 →
      (∀ c2 ∈ cs, c2 ≠ TextMode.CRc ∧ c2 ≠ TextMode.LFc) →
      c ≠ TextMode.CRc → c ≠ TextMode.LFc →
    ∀ (s : DState), s.text_col = 0 → s.text_row = r →
    ∀ (t : Nat) (evs : List Ev),
      ((TextMode.write_str cs okEnv (s, ⟨t, evs⟩)).2.1.text_col = 0 ∧
       (TextMode.write_str cs okEnv (s, ⟨t, evs⟩)).2.1.text_row = (r + 1) % 6) ∧
      ((TextMode.write_str (cs ++ [c]) okEnv (s, ⟨t, evs⟩)).2.1.text_col = 1 ∧
       (TextMode.write_str (cs ++ [c]) okEnv (s, ⟨t, evs⟩)).2.1.text_row = (r + 1) % 6) ∧
      (r + 1) % 6 < 6 := by
  intro r hr cs c hlen hord hcr hlf s hcol hrow t evs
  have hord2 : ∀ c2 ∈ cs ++ [c], c2 ≠ TextMode.CRc ∧ c2 ≠ TextMode.LFc := by
    intro c2 hc2
    rcases List.mem_append.mp hc2 with h | h
    · exact hord c2 h
    · simp at h
      subst h
      exact ⟨hcr, hlf⟩
  obtain ⟨e1, h1⟩ := write_str_ord cs hord s t evs
  obtain ⟨e2, h2⟩ := write_str_ord (cs ++ [c]) hord2 s t evs
  have hi := incN_14_15 r hr
  rw [h1, h2]
  simp only [applyIncN, hlen, List.length_append, List.length_singleton]
  rw [hcol, hrow]
  refine ⟨⟨?_, ?_⟩, ⟨?_, ?_⟩, ?_⟩
  · simp [hi.1]
  · simp [hi.1]
  · simp [hi.2]
  · simp [hi.2]
  · omega

theorem c7_witness :
    (5 : Nat) ≤ 5 ∧ (List.replicate 14 'a').length = 14 ∧
    ((TextMode.write_str (List.replicate 14 'a') okEnv (s5, ⟨0, []⟩)).2.1.text_col = 0 ∧
     (TextMode.write_str (List.replicate 14 'a') okEnv (s5, ⟨0, []⟩)).2.1.text_row
       = (5 + 1) % 6) ∧
    ((TextMode.write_str (List.replicate 14 'a' ++ ['a']) okEnv
        (s5, ⟨0, []⟩)).2.1.text_col = 1 ∧
     (TextMode.write_str (List.replicate 14 'a' ++ ['a']) okEnv
        (s5, ⟨0, []⟩)).2.1.text_row = (5 + 1) % 6) := by
  have hord : ∀ c2 ∈ List.replicate 14 'a',
      c2 ≠ TextMode.CRc ∧ c2 ≠ TextMode.LFc := by
    intro c2 hc2
    have he := List.eq_of_mem_replicate hc2
    subst he
    exact ⟨by decide, by decide⟩
  have h := c7_text_wrap 5 (by decide) (List.replicate 14 'a') 'a' (by simp) hord
    (by decide) (by decide) s5 rfl rfl 0 []
  exact ⟨by decide, by simp, h.1, h.2.1⟩

theorem pres_of_keepsD {m : M DState α} (h : KeepsD m) : PreservesInv m := by
  intro env st hi
  rw [h env st]
  exact hi

theorem pres_bind {m : M DState α} {k : α → M DState β}
    (h1 : PreservesInv m) (h2 : ∀ a, PreservesInv (k a)) : PreservesInv (m >>= k) := by
  intro env st hi
  show Inv ((Bind.bind m k) env st).2.1
  simp only [Bind.bind, instMonadM]
  rcases hm : m env st with ⟨o, st2⟩
  have hi2 : Inv st2.1 := by
    have := h1 env st hi
    rw [hm] at this
    exact this
  cases o with
  | ok a => exact h2 a env st2 hi2
  | err e => exact hi2
  | assertFailed => exact hi2

theorem pres_set_col (n : Nat) : PreservesInv (TextMode.set_col n) := by
  intro env st hi
  unfold TextMode.set_col
  by_cases h : n < COLUMNS
  · rw [if_pos h]
    show Inv ((modifyS (fun s => { s with text_col := n }) >>= fun _ =>
      Display.write_command (.Xaddress (n * 6))) env st).2.1
    simp only [Bind.bind, instMonadM, modifyS]
    rw [keepsD_write_command _ env _]
    have hC : COLUMNS = 14 := rfl
    rw [hC] at h
    exact ⟨by show n ≤ 13; omega, hi.2⟩
  · rw [if_neg h]
    exact hi

theorem pres_set_row (n : Nat) : PreservesInv (TextMode.set_row n) := by
  intro env st hi
  unfold TextMode.set_row
  by_cases h : n < DDRAM_BANKS
  · rw [if_pos h]
    simp only [Bind.bind, instMonadM, modifyS]
    rw [keepsD_write_command _ env _]
    have hB : DDRAM_BANKS = 6 := rfl
    rw [hB] at h
    exact ⟨hi.1, by show n ≤ 5; omega⟩
  · rw [if_neg h]
    exact hi

theorem pres_set_position (a b : Nat) : PreservesInv (TextMode.set_position a b) :=
  pres_bind (pres_set_col a) (fun _ => pres_set_row b)

theorem pres_cls : PreservesInv TextMode.cls := by
  intro env st hi
  show Inv ((modifyS (fun s => { s with text_col := 0, text_row := 0 }) >>= fun _ =>
    Display.hw_cls) env st).2.1
  simp only [Bind.bind, instMonadM, modifyS]
  rw [keepsD_hw_cls env _]
  exact ⟨by show (0 : Nat) ≤ 13; omega, by show (0 : Nat) ≤ 5; omega⟩

theorem inc_pair_bounds (p : Nat × Nat) (h1 : p.1 ≤ 13) (h2 : p.2 ≤ 5) :
    (TextMode.increase_position p).1 ≤ 13 ∧ (TextMode.increase_position p).2 ≤ 5 := by
  unfold TextMode.increase_position TextMode.cr_lf
  by_cases hc : p.1 + 1 = 14
  · simp only [hc]
    by_cases hr : p.2 = 5 <;> simp [hr]
    omega
  · simp [hc]
    omega

theorem inv_applyInc (s : DState) (h : Inv s) : Inv (applyInc s) := by
  have hb := inc_pair_bounds (s.text_col, s.text_row) h.1 h.2
  exact ⟨hb.1, hb.2⟩

theorem pres_increase_positionM : PreservesInv TextMode.increase_positionM := by
  intro env st hi
  show Inv (applyInc st.1)
  exact inv_applyInc st.1 hi

theorem pres_processChar (c : Char) : PreservesInv (TextMode.processChar c) := by
  intro env st hi
  unfold TextMode.processChar
  by_cases hcr : c = TextMode.CRc
  · rw [if_pos hcr]
    exact pres_set_col 0 env st hi
  · rw [if_neg hcr]
    by_cases hlf : c = TextMode.LFc
    · rw [if_pos hlf]
      show Inv ((getS >>= fun s =>
        (repeatM (TextMode.lfPadding s) (Display.write_data (List.replicate 6 0x00))
          >>= fun _ =>
          (modifyS (fun s2 => { s2 with text_col := s2.text_col + TextMode.lfPadding s })
            >>= fun _ => TextMode.cr_lfM))) env st).2.1
      simp only [Bind.bind, instMonadM, getS]
      rcases hrep : repeatM (TextMode.lfPadding st.1)
          (Display.write_data (List.replicate 6 0x00)) env st with ⟨o, st2⟩
      have hst2 : st2.1 = st.1 := by
        have := keepsD_repeat (keepsD_write_data (List.replicate 6 0x00))
          (TextMode.lfPadding st.1) env st
        rw [hrep] at this
        exact this
      have hcol : st.1.text_col + TextMode.lfPadding st.1 = 14 := by
        have h1 := hi.1
        have hP : TextMode.lfPadding st.1 = 14 - st.1.text_col := rfl
        rw [hP]
        omega
      cases o with
      | ok a =>
        constructor
        · show (TextMode.cr_lf
            (st2.1.text_col + TextMode.lfPadding st.1, st2.1.text_row)).1 ≤ 13
          rw [hst2, hcol]
          simp [TextMode.cr_lf]
        · show (TextMode.cr_lf
            (st2.1.text_col + TextMode.lfPadding st.1, st2.1.text_row)).2 ≤ 5
          rw [hst2, hcol]
          have h2 := hi.2
          simp only [TextMode.cr_lf]
          by_cases hr : st.1.text_row = 5
          · simp [hr]
          · simp [hr]
            omega
      | err e =>
        show Inv st2.1
        rw [hst2]
        exact hi
      | assertFailed =>
        show Inv st2.1
        rw [hst2]
        exact hi
    · rw [if_neg hlf]
      exact pres_bind (pres_of_keepsD (keepsD_write_data _))
        (fun _ => pres_bind (pres_of_keepsD (keepsD_write_data _))
          (fun _ => pres_increase_positionM)) env st hi

theorem pres_write_str : ∀ cs, PreservesInv (TextMode.write_str cs) := by
  intro cs
  induction cs with
  | nil => exact fun env st hi => hi
  | cons c cs ih => exact pres_bind (pres_processChar c) (fun _ => ih)

/-- C10: from construction (text cursor (0,0), which satisfies the
invariant) every text-view operation preserves text_col at most 13 and
text_row at most 5 on return, on error paths included; under the invariant
the LF handler's subtraction COLUMNS - text_col is exact (no underflow):
the column plus the computed padding is exactly COLUMNS. -/
theorem c10_cursor_invariant :
    Inv s0 ∧
    (∀ n, PreservesInv (TextMode.set_col n)) ∧
    (∀ n, PreservesInv (TextMode.set_row n)) ∧
    (∀ a b, PreservesInv (TextMode.set_position a b)) ∧
    (∀ cs, PreservesInv (TextMode.write_str cs)) ∧
    PreservesInv TextMode.cls ∧
    (∀ s : DState, Inv s → s.text_col + TextMode.lfPadding s = COLUMNS) := by
  refine ⟨⟨by decide, by decide⟩, pres_set_col, pres_set_row, pres_set_position,
    pres_write_str, pres_cls, ?_⟩
  intro s hs
  have h1 := hs.1
  have hP : TextMode.lfPadding s = 14 - s.text_col := rfl
  have hC : COLUMNS = 14 := rfl
  rw [hP, hC]
  omega

theorem c10_witness :
    Inv s0 ∧
    Inv ((TextMode.write_str [TextMode.LFc, 'Z'] okEnv (s0, ⟨0, []⟩)).2.1) ∧
    Inv ((TextMode.set_col 9 okEnv (s0, ⟨0, []⟩)).2.1) ∧
    s0.text_col + TextMode.lfPadding s0 = COLUMNS := by
  refine ⟨c10_cursor_invariant.1, ?_, ?_, ?_⟩
  · exact c10_cursor_invariant.2.2.2.2.1 [TextMode.LFc, 'Z'] okEnv (s0, ⟨0, []⟩)
      ⟨by decide, by decide⟩
  · exact c10_cursor_invariant.2.1 9 okEnv (s0, ⟨0, []⟩) ⟨by decide, by decide⟩
  · exact c10_cursor_invariant.2.2.2.2.2.2 s0 ⟨by decide, by decide⟩

/-- C6: out-of-range pixel coordinates (x at least 84 or y at least 48) make
set_pixel a silent no-op, and pixels submitted through either draw_iter
variant with such coordinates are skipped, leaving the framebuffer
byte-for-byte unchanged; for in-range coordinates the computed byte index
stays inside the 504-byte buffer, so no out-of-bounds access occurs. -/
theorem c6_oob_pixels_noop :
    (∀ (fb : List Nat) (x y : Nat) (c : Bool), WIDTH ≤ x ∨ HEIGHT ≤ y →
      Graphics.set_pixel fb x y c = fb) ∧
    (∀ (fb : List Nat) (ps : List Px),
      (∀ p ∈ ps, (WIDTH : Int) ≤ p.x ∨ (HEIGHT : Int) ≤ p.y) →
      Graphics.draw_iter fb ps = fb) ∧
    (∀ (fb : List (List Nat)) (ps : List Px),
      (∀ p ∈ ps, (84 : Int) ≤ p.x ∨ (48 : Int) ≤ p.y) →
      DrawTarget2.draw_iter fb ps = fb) ∧
    (∀ x y : Nat, x < WIDTH → y < HEIGHT → (y / 8) * WIDTH + x < DDRAM_SIZE) := by
  refine ⟨?_, ?_, ?_, ?_⟩
  · intro fb x y c h
    have hcond : ¬(x < WIDTH ∧ y < HEIGHT) := by
      have hW : WIDTH = 84 := rfl
      have hH : HEIGHT = 48 := rfl
      rw [hW, hH] at h ⊢
      omega
    unfold Graphics.set_pixel
    rw [if_neg hcond]
  · intro fb ps h
    have hfil : ps.filter Graphics.bbContains = [] := by
      rw [List.filter_eq_nil_iff]
      intro p hp
      have hpp := h p hp
      have hW : (WIDTH : Nat) = 84 := rfl
      have hH : (HEIGHT : Nat) = 48 := rfl
      rw [hW, hH] at hpp
      simp only [Graphics.bbContains, hW, hH, Bool.and_eq_true, decide_eq_true_eq, not_and]
      intro h1 h2
      push_cast at hpp
      omega
    unfold Graphics.draw_iter
    rw [hfil]
    rfl
  · intro fb ps h
    induction ps generalizing fb with
    | nil => rfl
    | cons p ps ih =>
      have hp := h p (by simp)
      show DrawTarget2.draw_iter fb (p :: ps) = fb
      unfold DrawTarget2.draw_iter
      rw [List.foldl_cons]
      have hcond : ¬((0 : Int) ≤ p.x ∧ p.x ≤ (83 : Int) ∧ (0 : Int) ≤ p.y
          ∧ p.y ≤ (47 : Int)) := by
        omega
      rw [if_neg hcond]
      exact ih fb (fun q hq => h q (List.mem_cons_of_mem p hq))
  · intro x y hx hy
    have hW : WIDTH = 84 := rfl
    have hH : HEIGHT = 48 := rfl
    have hD : DDRAM_SIZE = 504 := rfl
    rw [hW] at hx ⊢
    rw [hH] at hy
    rw [hD]
    omega

theorem c6_witness :
    (WIDTH ≤ 84 ∨ HEIGHT ≤ 48) ∧
    Graphics.set_pixel (List.replicate DDRAM_SIZE 0) 84 48 true
      = List.replicate DDRAM_SIZE 0 ∧
    ((WIDTH : Int) ≤ 84 ∨ (HEIGHT : Int) ≤ 100) ∧
    Graphics.draw_iter (List.replicate DDRAM_SIZE 0) [⟨84, 100, true⟩]
      = List.replicate DDRAM_SIZE 0 := by
  refine ⟨Or.inl (by decide), ?_, Or.inl (by decide), ?_⟩
  · exact c6_oob_pixels_noop.1 (List.replicate DDRAM_SIZE 0) 84 48 true
      (Or.inl (by decide))
  · refine c6_oob_pixels_noop.2.1 (List.replicate DDRAM_SIZE 0) [⟨84, 100, true⟩] ?_
    intro p hp
    simp at hp
    subst hp
    exact Or.inl (by decide)

end PCD
